import Mathlib

/-!
Verification of the gerrit_mq merge-queue daemon against its specification.

The definitions below are shallow embeddings of the Python sources in
`gerrit_mq/`: `common.py` (merge-queue score folding, commit-message
metadata extraction), `functions.py` (gerrit polling and queue pagination),
`webfront.py` (query-argument extraction and the cancel endpoint) and
`daemon.py` (pid-file handling, the kill protocol for build steps, and the
scheduler with its coalesce/fallback logic).  Strings manipulated by the
parsing code are modelled as `List Char`; machine time is modelled as `Nat`
seconds; SQL tables are modelled as Lean lists of rows.
-/

namespace GerritMQ

/-! ### Python string primitives over `List Char`

These model the exact Python operations used by the sources:
`str.strip`, `str.split(',', ...)`, `str.split(':', 1)` and `int(...)`.
-/

/-- Characters considered whitespace by Python `str.strip()`. -/
def pyLStrip (s : List Char) : List Char :=
  s.dropWhile Char.isWhitespace

/-- Python `str.strip()`: drop leading and trailing whitespace. -/
def pyStrip (s : List Char) : List Char :=
  pyLStrip ((pyLStrip s.reverse).reverse)

/-- Python `str.split(',')`: split on every comma, keeping empty pieces. -/
def splitComma : List Char → List (List Char)
  | [] => [[]]
  | c :: rest =>
    if c = ',' then [] :: splitComma rest
    else
      match splitComma rest with
      | [] => [[c]]
      | h :: t => (c :: h) :: t

/-- Accumulate the value of a digit string; `none` when a non-digit occurs. -/
def natDigitsAux : Nat → List Char → Option Nat
  | acc, [] => some acc
  | acc, c :: rest =>
    if c.isDigit then natDigitsAux (acc * 10 + (c.toNat - '0'.toNat)) rest
    else none

/-- Value of a non-empty all-digit string; `none` otherwise. -/
def natDigits : List Char → Option Nat
  | [] => none
  | l => natDigitsAux 0 l

/-- Python `int(s)`: strip whitespace, optional sign, then decimal digits.
Malformed input (which raises `ValueError` in Python) yields `none`. -/
def pyInt : List Char → Option Int
  | s =>
    match pyStrip s with
    | '+' :: rest => (natDigits rest).map Int.ofNat
    | '-' :: rest => (natDigits rest).map (fun n => -(n : Int))
    | l => (natDigits l).map Int.ofNat

/-- Python `line.split(':', 1)` restricted to the two-element case: the text
before the first colon and the text after it; `none` when the line has no
colon (the `len(parts) == 2` test fails). -/
def splitColon : List Char → Option (List Char × List Char)
  | [] => none
  | c :: rest =>
    if c = ':' then some ([], rest)
    else
      match splitColon rest with
      | some (k, v) => some (c :: k, v)
      | none => none

/-! ### C1: `get_resolved_merge_queue_score` (common.py lines 115-132)

The Python function scans a chronologically sorted list of `(time, score)`
pairs with accumulator initialised to `(utcnow(), -1)`: a `-1` event always
replaces the accumulator, a `+1` event replaces it only when the current
score is not already `+1`, and all other scores are ignored. -/

/-- One iteration of the scan loop in `get_resolved_merge_queue_score`. -/
def mqStep (acc : Nat × Int) (p : Nat × Int) : Nat × Int :=
  if p.2 = -1 then p
  else if p.2 = 1 ∧ acc.2 ≠ 1 then p
  else acc

/-- The scan loop of `get_resolved_merge_queue_score`. -/
def resolveFold : (Nat × Int) → List (Nat × Int) → Nat × Int
  | acc, [] => acc
  | acc, p :: rest => resolveFold (mqStep acc p) rest

/-- `get_resolved_merge_queue_score(sorted_labels)` with `now` standing for
`datetime.datetime.utcnow()`. -/
def get_resolved_merge_queue_score (now : Nat) (labels : List (Nat × Int)) :
    Nat × Int :=
  resolveFold (now, -1) labels

/-- An event is a `-1` (blocking) event. -/
def isMinus (p : Nat × Int) : Bool := p.2 == -1

/-- An event of `L` is an "active" `+1`: a `+1` whose timestamp strictly
exceeds the timestamp of every `-1` event of `L`.  This is the selection
criterion stated by the specification. -/
def isActivePlus (L : List (Nat × Int)) (p : Nat × Int) : Bool :=
  p.2 == 1 && L.all (fun q => !(q.2 == -1) || decide (q.1 < p.1))

/-- The resolution function exactly as the claim states it: the earliest
active `+1` when one exists, and `(now, -1)` otherwise. -/
def resolveClaim (now : Nat) (L : List (Nat × Int)) : Nat × Int :=
  ((L.filter (isActivePlus L)).head?).getD (now, -1)

/-- The resolution function as the code actually behaves on sorted input:
the earliest active `+1` when one exists; otherwise the latest `-1` event
itself; otherwise `(now, -1)`. -/
def resolveAmendedSpec (now : Nat) (L : List (Nat × Int)) : Nat × Int :=
  ((L.filter (isActivePlus L)).head?).getD
    (((L.filter isMinus).getLast?).getD (now, -1))

/-- Generalisation of `resolveAmendedSpec` to an arbitrary accumulator,
used as the induction invariant for the scan loop. -/
def mqSpec (acc : Nat × Int) (L : List (Nat × Int)) : Nat × Int :=
  if acc.2 = 1 ∧ L.filter isMinus = [] then acc
  else
    ((L.filter (isActivePlus L)).head?).getD
      (((L.filter isMinus).getLast?).getD acc)

/-- `getD` of `getLast?` over a cons: the new head only matters when the
tail is empty. -/
theorem getLast?_getD_cons {α : Type} (l : List α) (a d : α) :
    ((a :: l).getLast?).getD d = (l.getLast?).getD a := by
  induction l generalizing a d with
  | nil => rfl
  | cons b t ih => rw [List.getLast?_cons_cons, ih b d, ih b a]

theorem filter_isMinus_cons_minus {p : Nat × Int} (L : List (Nat × Int))
    (h : p.2 = -1) : (p :: L).filter isMinus = p :: L.filter isMinus := by
  simp [List.filter_cons, isMinus, h]

theorem filter_isMinus_cons_other {p : Nat × Int} (L : List (Nat × Int))
    (h : p.2 ≠ -1) : (p :: L).filter isMinus = L.filter isMinus := by
  simp [List.filter_cons, isMinus, h]

theorem isActivePlus_false_of_minus {L : List (Nat × Int)} {p : Nat × Int}
    (h : p.2 = -1) : isActivePlus L p = false := by
  simp [isActivePlus, h]

/-- Prepending an event that does not constrain `x` leaves the activity test
for `x` unchanged. -/
theorem isActivePlus_cons_eq {p x : Nat × Int} {L : List (Nat × Int)}
    (hx : (!(p.2 == -1) || decide (p.1 < x.1)) = true) :
    isActivePlus (p :: L) x = isActivePlus L x := by
  simp only [isActivePlus, List.all_cons, hx, Bool.true_and]

/-- Prepending a `-1` event below all of `L` does not change the set of
active `+1` events. -/
theorem activePlus_filter_cons_minus {p : Nat × Int} {L : List (Nat × Int)}
    (hm : p.2 = -1) (hlt : ∀ x ∈ L, p.1 < x.1) :
    (p :: L).filter (isActivePlus (p :: L)) = L.filter (isActivePlus L) := by
  rw [List.filter_cons, if_neg (by simp [isActivePlus_false_of_minus hm])]
  refine List.filter_congr fun x hx => isActivePlus_cons_eq ?_
  simp [hm, hlt x hx]

/-- Prepending a non-`-1` event that is itself inactive does not change the
set of active `+1` events. -/
theorem activePlus_filter_cons_skip {p : Nat × Int} {L : List (Nat × Int)}
    (hm : p.2 ≠ -1) (hpx : isActivePlus (p :: L) p = false) :
    (p :: L).filter (isActivePlus (p :: L)) = L.filter (isActivePlus L) := by
  rw [List.filter_cons, if_neg (by simp [hpx])]
  refine List.filter_congr fun x hx => isActivePlus_cons_eq ?_
  simp [hm]

/-- A `+1` event sitting below some `-1` event of `L` is not active. -/
theorem isActivePlus_cons_self_blocked {p : Nat × Int} {L : List (Nat × Int)}
    (hlt : ∀ x ∈ L, p.1 < x.1) (hblock : L.filter isMinus ≠ []) :
    isActivePlus (p :: L) p = false := by
  have hex : ∃ q ∈ L, isMinus q = true := by
    by_contra hno
    push_neg at hno
    exact hblock (List.filter_eq_nil_iff.mpr (by simpa using hno))
  obtain ⟨q, hqL, hq⟩ := hex
  have hq2 : q.2 = -1 := by simpa [isMinus] using hq
  have hqf : (!(q.2 == -1) || decide (q.1 < p.1)) = false := by
    have hpq := hlt q hqL
    simp [hq2]
    omega
  have hall : ((p :: L).all fun r => !(r.2 == -1) || decide (r.1 < p.1)) = false := by
    rw [Bool.eq_false_iff]
    intro hall
    rw [List.all_eq_true] at hall
    have := hall q (List.mem_cons_of_mem p hqL)
    rw [hqf] at this
    exact Bool.false_ne_true this
  simp [isActivePlus, hall]

/-- A `+1` event with no `-1` event at all is active. -/
theorem isActivePlus_cons_self_free {p : Nat × Int} {L : List (Nat × Int)}
    (hp : p.2 = 1) (hfree : L.filter isMinus = []) :
    isActivePlus (p :: L) p = true := by
  have hno := List.filter_eq_nil_iff.mp hfree
  simp only [isActivePlus, List.all_cons]
  rw [Bool.and_eq_true, Bool.and_eq_true]
  refine ⟨by simp [hp], by simp [hp], ?_⟩
  rw [List.all_eq_true]
  intro x hx
  have hxm : (x.2 == -1) = false := by
    simpa [isMinus, Bool.not_eq_true] using hno x hx
  simp [hxm]

/-- The scan loop of `get_resolved_merge_queue_score`, started from an
arbitrary accumulator, computes `mqSpec` on every chronologically
strictly-sorted event list. -/
theorem resolveFold_eq_mqSpec :
    ∀ (L : List (Nat × Int)) (acc : Nat × Int),
      L.Pairwise (fun a b => a.1 < b.1) → resolveFold acc L = mqSpec acc L
  | [], acc, _ => by
      simp [resolveFold, mqSpec]
  | p :: L, acc, hs => by
      rw [List.pairwise_cons] at hs
      obtain ⟨hlt, hs'⟩ := hs
      have h0 : resolveFold acc (p :: L) = resolveFold (mqStep acc p) L := rfl
      rw [h0, resolveFold_eq_mqSpec L (mqStep acc p) hs']
      by_cases hm : p.2 = -1
      · -- a `-1` event replaces the accumulator
        have hstep : mqStep acc p = p := by simp [mqStep, hm]
        have hminf := filter_isMinus_cons_minus L hm
        have hfilt := activePlus_filter_cons_minus hm hlt
        rw [hstep]
        simp only [mqSpec, hminf, hfilt]
        rw [if_neg (by rw [hm]; rintro ⟨h1, -⟩; exact absurd h1 (by decide)),
          if_neg (by rintro ⟨-, h2⟩; exact List.cons_ne_nil _ _ h2),
          getLast?_getD_cons]
      · by_cases hp : p.2 = 1
        · by_cases ha : acc.2 = 1
          · -- a `+1` event is ignored when the accumulator is already `+1`
            have hstep : mqStep acc p = acc := by
              simp [mqStep, hm, ha]
            have hminf := filter_isMinus_cons_other L hm
            rw [hstep]
            by_cases hfree : L.filter isMinus = []
            · simp only [mqSpec, hminf]
              rw [if_pos ⟨ha, hfree⟩, if_pos ⟨ha, hfree⟩]
            · have hfilt := activePlus_filter_cons_skip hm
                (isActivePlus_cons_self_blocked hlt hfree)
              simp only [mqSpec, hminf, hfilt]
          · -- a `+1` event replaces a non-`+1` accumulator
            have hstep : mqStep acc p = p := by
              simp [mqStep, hm, hp, ha]
            have hminf := filter_isMinus_cons_other L hm
            rw [hstep]
            by_cases hfree : L.filter isMinus = []
            · -- no `-1` at all: `p` itself is the earliest active `+1`
              have happ := isActivePlus_cons_self_free hp hfree
              simp only [mqSpec, hminf]
              rw [if_pos ⟨hp, hfree⟩, if_neg (fun hc => ha hc.1)]
              rw [List.filter_cons, if_pos happ]
              rfl
            · -- a later `-1` exists: `p` is inactive
              have hfilt := activePlus_filter_cons_skip hm
                (isActivePlus_cons_self_blocked hlt hfree)
              simp only [mqSpec, hminf, hfilt]
              rw [if_neg (fun hc => hfree hc.2), if_neg (fun hc => ha hc.1)]
              have hsome : (L.filter isMinus).getLast?.isSome := by
                rw [List.getLast?_isSome]
                exact hfree
              obtain ⟨g, hg⟩ := Option.isSome_iff_exists.mp hsome
              rw [hg]
              rfl
        · -- an event with any other score is ignored
          have hstep : mqStep acc p = acc := by
            simp [mqStep, hm]
            intro h1
            exact absurd h1 hp
          have hminf := filter_isMinus_cons_other L hm
          have hpx : isActivePlus (p :: L) p = false := by
            have : (p.2 == 1) = false := by
              simpa using hp
            simp [isActivePlus, this]
          have hfilt := activePlus_filter_cons_skip hm hpx
          rw [hstep]
          simp only [mqSpec, hminf, hfilt]

/-- Claim C1 (counterexample): on the chronologically sorted singleton list
`[(5, -1)]` with `now = 0`, `get_resolved_merge_queue_score` returns
`(5, -1)` — the timestamp of the latest `-1` event — while the claim says
every list without an active `+1` resolves to `(now, -1) = (0, -1)`. -/
theorem C1_counterexample :
    List.Pairwise (fun a b : Nat × Int => a.1 < b.1) [((5 : Nat), (-1 : Int))]
    ∧ get_resolved_merge_queue_score 0 [(5, -1)] = (5, -1)
    ∧ resolveClaim 0 [(5, -1)] = (0, -1)
    ∧ get_resolved_merge_queue_score 0 [(5, -1)] ≠ resolveClaim 0 [(5, -1)] := by
  refine ⟨by decide, by decide, by decide, by decide⟩

/-- Claim C1 (amended): on every chronologically strictly-sorted label-event
list, `get_resolved_merge_queue_score` returns the earliest `+1` event whose
timestamp exceeds that of every `-1` event, when one exists; otherwise it
returns the latest `-1` event itself, when one exists; and `(now, -1)` only
when neither exists. -/
theorem C1_amended (now : Nat) (L : List (Nat × Int))
    (hs : L.Pairwise (fun a b => a.1 < b.1)) :
    get_resolved_merge_queue_score now L = resolveAmendedSpec now L := by
  have h0 : get_resolved_merge_queue_score now L = resolveFold (now, -1) L := rfl
  rw [h0, resolveFold_eq_mqSpec L (now, -1) hs]
  have hcond : ¬ (((now : Nat), (-1 : Int)).2 = 1 ∧ L.filter isMinus = []) := by
    rintro ⟨h1, -⟩
    simp at h1
  simp only [mqSpec, resolveAmendedSpec]
  rw [if_neg hcond]

/-- Witness for `C1_amended` at a concrete sorted history: a `-1` at time 1
followed by `+1`s at times 3 and 5 resolves to the `+1` at time 3. -/
theorem C1_witness :
    get_resolved_merge_queue_score 99 [(1, -1), (3, 1), (5, 1)]
        = resolveAmendedSpec 99 [(1, -1), (3, 1), (5, 1)]
    ∧ resolveAmendedSpec 99 [(1, -1), (3, 1), (5, 1)] = (3, 1) :=
  ⟨C1_amended 99 [(1, -1), (3, 1), (5, 1)] (by decide), by decide⟩

/-! ### C8: `GerritRest.get_message_meta` (common.py lines 346-383)

The commit message is scanned line by line; each line is split at the first
colon.  `Closes` and `Resolves` accumulate comma-separated lists across
duplicate lines, `Priority` is parsed with `int()` (a `ValueError` is
swallowed), and every other key maps to its stripped, last-seen value.  The
Python dict is modelled as an association list updated in place. -/

/-- A value of the metadata dictionary: `Closes`/`Resolves` hold lists of
strings, `Priority` holds an integer, other keys hold strings. -/
inductive MetaValue where
  | strs : List (List Char) → MetaValue
  | int : Int → MetaValue
  | str : List Char → MetaValue
deriving DecidableEq

/-- Dictionary lookup. -/
def getKey : List (List Char × MetaValue) → List Char → Option MetaValue
  | [], _ => none
  | (k, v) :: rest, key => if k = key then some v else getKey rest key

/-- Dictionary update: replace the binding in place, or append a new one. -/
def setKey : List (List Char × MetaValue) → List Char → MetaValue →
    List (List Char × MetaValue)
  | [], key, v => [(key, v)]
  | (k, w) :: rest, key, v =>
    if k = key then (k, v) :: rest else (k, w) :: setKey rest key v

def kCloses : List Char := ("Closes").data

def kResolves : List Char := ("Resolves").data

def kPriority : List Char := ("Priority").data

/-- The current list stored under an accumulating key (`result[key]` in the
source, which is always a list for `Closes`/`Resolves`). -/
def strsOf (m : List (List Char × MetaValue)) (key : List Char) :
    List (List Char) :=
  match getKey m key with
  | some (MetaValue.strs l) => l
  | _ => []

/-- `[item.strip() for item in value.strip().split(',')]`. -/
def metaItems (value : List Char) : List (List Char) :=
  (splitComma (pyStrip value)).map pyStrip

/-- Processing of one commit-message line by `get_message_meta`. -/
def metaStep (m : List (List Char × MetaValue)) (line : List Char) :
    List (List Char × MetaValue) :=
  match splitColon line with
  | none => m
  | some (key, value) =>
    if key = kCloses ∨ key = kResolves then
      setKey m key (MetaValue.strs (strsOf m key ++ metaItems value))
    else if key = kPriority then
      match pyInt value with
      | some n => setKey m key (MetaValue.int n)
      | none => m
    else
      setKey m key (MetaValue.str (pyStrip value))

/-- `get_message_meta` over the lines of the commit message, starting from
`dict(Closes=[], Resolves=[])`. -/
def get_message_meta (lines : List (List Char)) :
    List (List Char × MetaValue) :=
  lines.foldl metaStep
    [(kCloses, MetaValue.strs []), (kResolves, MetaValue.strs [])]

theorem getKey_setKey_self (m : List (List Char × MetaValue))
    (key : List Char) (v : MetaValue) : getKey (setKey m key v) key = some v := by
  induction m with
  | nil => simp [setKey, getKey]
  | cons hd tl ih =>
    obtain ⟨k, w⟩ := hd
    by_cases hk : k = key
    · simp [setKey, getKey, hk]
    · simp [setKey, getKey, hk, ih]

/-- Splitting at the first colon of `k ++ ":" ++ v` when `k` has no colon. -/
theorem splitColon_append (k v : List Char) (hc : (':' : Char) ∉ k) :
    splitColon (k ++ ':' :: v) = some (k, v) := by
  induction k with
  | nil => simp [splitColon]
  | cons c k ih =>
    have hcne : c ≠ ':' := fun h => hc (h ▸ List.mem_cons_self c k)
    have hck : (':' : Char) ∉ k := fun h => hc (List.mem_cons_of_mem c h)
    simp [splitColon, hcne, ih hck]

theorem get_message_meta_append (L : List (List Char)) (l : List Char) :
    get_message_meta (L ++ [l]) = metaStep (get_message_meta L) l := by
  simp [get_message_meta, List.foldl_append]

/-- Claim C8: duplicate `Closes:`/`Resolves:` lines accumulate their
comma-separated, stripped items in order; a `Priority:` line whose value
`int()` rejects leaves the dictionary untouched; every other colon-headed
line maps its key to the stripped last-seen value. -/
theorem C8_message_meta (L : List (List Char)) (v w x k : List Char)
    (hc : (':' : Char) ∉ k) (h1 : k ≠ kCloses) (h2 : k ≠ kResolves)
    (h3 : k ≠ kPriority) (hw : pyInt w = none) :
    strsOf (get_message_meta (L ++ [kCloses ++ ':' :: v])) kCloses
        = strsOf (get_message_meta L) kCloses ++ metaItems v
    ∧ strsOf (get_message_meta (L ++ [kResolves ++ ':' :: v])) kResolves
        = strsOf (get_message_meta L) kResolves ++ metaItems v
    ∧ get_message_meta (L ++ [kPriority ++ ':' :: w]) = get_message_meta L
    ∧ getKey (get_message_meta (L ++ [k ++ ':' :: x])) k
        = some (MetaValue.str (pyStrip x)) := by
  refine ⟨?_, ?_, ?_, ?_⟩
  · rw [get_message_meta_append, metaStep,
      splitColon_append kCloses v (by decide)]
    simp only [true_or, if_true]
    simp [strsOf, getKey_setKey_self]
  · rw [get_message_meta_append, metaStep,
      splitColon_append kResolves v (by decide)]
    simp only [or_true, if_true]
    simp [strsOf, getKey_setKey_self]
  · rw [get_message_meta_append, metaStep,
      splitColon_append kPriority w (by decide)]
    simp only []
    rw [if_neg (by decide)]
    simp only [if_true]
    rw [hw]
  · rw [get_message_meta_append, metaStep, splitColon_append k x hc]
    simp only []
    rw [if_neg (by rintro (h | h) <;> [exact h1 h; exact h2 h]), if_neg h3]
    exact getKey_setKey_self _ _ _

/-- Witness for `C8_message_meta`: after `Closes: a, b`, the line
`Closes: c` extends the accumulated list to `["a", "b", "c"]`, and the
other conjuncts hold at concrete inputs. -/
theorem C8_witness :
    strsOf (get_message_meta ([("Closes: a, b").data]
        ++ [kCloses ++ ':' :: (" c").data])) kCloses
      = strsOf (get_message_meta [("Closes: a, b").data]) kCloses
          ++ metaItems ((" c").data)
    ∧ strsOf (get_message_meta [("Closes: a, b").data]) kCloses
        = [("a").data, ("b").data]
    ∧ metaItems ((" c").data) = [("c").data]
    ∧ get_message_meta [("Priority: not-a-number").data]
        = get_message_meta []
    ∧ getKey (get_message_meta ([] ++ [("Author").data ++ ':'
        :: (" Jane").data])) (("Author").data)
        = some (MetaValue.str (("Jane").data)) := by
  refine ⟨(C8_message_meta [("Closes: a, b").data] ((" c").data)
      (("x").data) (("y").data) (("Author").data)
      (by decide) (by decide) (by decide) (by decide) (by decide)).1,
    by decide, by decide, ?_, ?_⟩
  · have h := (C8_message_meta [] (("v").data) ((" not-a-number").data)
      (("y").data) (("Author").data)
      (by decide) (by decide) (by decide) (by decide) (by decide)).2.2.1
    have he : kPriority ++ ':' :: (" not-a-number").data
        = ("Priority: not-a-number").data := by decide
    rw [he] at h
    simpa using h
  · have h := (C8_message_meta [] (("v").data) (("x").data)
      ((" Jane").data) (("Author").data)
      (by decide) (by decide) (by decide) (by decide) (by decide)).2.2.2
    rw [h]
    decide

/-! ### C9: `extract_common_args` (webfront.py lines 58-77) and the
pagination of `get_queue` (functions.py lines 88-117)

`limit` is `min(int(args['limit']), 500)` with default 25 when the key is
missing (`KeyError`) or unparseable (`ValueError`); `offset` is
`max(int(args['offset']), 0)` with default 0.  `get_queue` applies
`.offset(...)` only when `offset > 0` and `.limit(...)` only when
`limit > 0`. -/

/-- The `limit` computed by `extract_common_args`. -/
def extract_limit (arg : Option (List Char)) : Int :=
  match arg with
  | none => 25
  | some s =>
    match pyInt s with
    | none => 25
    | some n => min n 500

/-- The `offset` computed by `extract_common_args`. -/
def extract_offset (arg : Option (List Char)) : Int :=
  match arg with
  | none => 0
  | some s =>
    match pyInt s with
    | none => 0
    | some n => max n 0

/-- `if offset is not None and offset > 0: query = query.offset(offset)`. -/
def apply_query_offset {α : Type} (offset : Int) (rows : List α) : List α :=
  if 0 < offset then rows.drop offset.toNat else rows

/-- `if limit is not None and limit > 0: query = query.limit(limit)`. -/
def apply_query_limit {α : Type} (limit : Int) (rows : List α) : List α :=
  if 0 < limit then rows.take limit.toNat else rows

/-- The paginated row list returned by `get_queue`. -/
def get_queue_rows {α : Type} (offset limit : Int) (rows : List α) : List α :=
  apply_query_limit limit (apply_query_offset offset rows)

/-- Claim C9 (counterexample): the query-string limit `-5` is not clamped
into `[0, 500]` — `extract_limit` returns `-5` itself, and with a
non-positive limit `get_queue` applies no LIMIT clause at all, returning
all 30 rows of a 30-row table where the default limit would return 25. -/
theorem C9_counterexample :
    extract_limit (some (("-5").data)) = -5
    ∧ ¬ (0 : Int) ≤ extract_limit (some (("-5").data))
    ∧ get_queue_rows 0 (extract_limit (some (("-5").data))) (List.range 30)
        = List.range 30
    ∧ 25 < (get_queue_rows 0 (extract_limit (some (("-5").data)))
        (List.range 30)).length := by
  refine ⟨by decide, by decide, by decide, by decide⟩

/-- Claim C9 (amended): the effective limit is at most 500 (values above
500 are clamped down, missing or unparseable limits default to 25), but a
negative limit is not clamped up to 0: a non-positive limit disables the
LIMIT clause so the query returns every matching row, while a positive
limit bounds the page at 500 rows. -/
theorem C9_amended {α : Type} (arg : Option (List Char)) (rows : List α) :
    extract_limit arg ≤ 500
    ∧ extract_limit none = 25
    ∧ (∀ s, pyInt s = none → extract_limit (some s) = 25)
    ∧ (0 < extract_limit arg →
        (get_queue_rows 0 (extract_limit arg) rows).length ≤ 500)
    ∧ (extract_limit arg ≤ 0 → get_queue_rows 0 (extract_limit arg) rows = rows) := by
  have hle : extract_limit arg ≤ 500 := by
    rcases arg with - | s
    · simp [extract_limit]
    · rcases hp : pyInt s with - | n <;> simp [extract_limit, hp]
  refine ⟨hle, rfl, fun s hs => by simp [extract_limit, hs], fun hpos => ?_,
    fun hnonpos => ?_⟩
  · rw [get_queue_rows, apply_query_offset, if_neg (by omega),
      apply_query_limit, if_pos hpos]
    calc (rows.take (extract_limit arg).toNat).length
        ≤ (extract_limit arg).toNat := by
          rw [List.length_take]
          omega
      _ ≤ 500 := by omega
  · rw [get_queue_rows, apply_query_offset, if_neg (by omega),
      apply_query_limit, if_neg (by omega)]

/-- Witness for `C9_amended` at limit string `"700"`: the limit clamps to
500, it is positive, and with only 3 rows the page is within bound. -/
theorem C9_witness :
    extract_limit (some (("700").data)) ≤ 500
    ∧ (0 < extract_limit (some (("700").data)) →
        (get_queue_rows 0 (extract_limit (some (("700").data)))
          [10, 20, 30]).length ≤ 500)
    ∧ (extract_limit (some (("0").data)) ≤ 0 →
        get_queue_rows 0 (extract_limit (some (("0").data)))
          [10, 20, 30] = ([10, 20, 30] : List Nat)) :=
  ⟨(C9_amended (some (("700").data)) ([] : List Nat)).1,
    (C9_amended (some (("700").data)) ([10, 20, 30] : List Nat)).2.2.2.1,
    (C9_amended (some (("0").data)) ([10, 20, 30] : List Nat)).2.2.2.2⟩

/-! ### C10: `Webfront.cancel_merge` (webfront.py lines 253-281)

The endpoint parses `rid`, answers 400 on a missing or malformed value,
answers SUCCESS with a note when a Cancellation row already exists, and
otherwise inserts `Cancellation(rid, who='Webfront', when=utcnow())` and
answers SUCCESS.  It never consults the `merge_history` table. -/

/-- One row of the `cancellations` table (orm.py lines 32-47). -/
structure Cancellation where
  rid : Int
  who : String
  when : Nat
deriving DecidableEq

/-- The part of a `merge_history` row relevant here (orm.py). -/
structure MergeStatusRow where
  rid : Int
  status : Int
deriving DecidableEq

/-- The store as seen by the webfront. -/
structure WebDB where
  cancellations : List Cancellation
  merge_history : List MergeStatusRow
deriving DecidableEq

/-- The three responses `cancel_merge` can produce. -/
inductive CancelResponse where
  | badRequest
  | successAlready
  | success
deriving DecidableEq

/-- `Webfront.cancel_merge`: `now` stands for `datetime.datetime.utcnow()`
and `ridArg` for `flask.request.args['rid']` (`none` when absent). -/
def cancel_merge (now : Nat) (ridArg : Option (List Char)) (db : WebDB) :
    CancelResponse × WebDB :=
  match ridArg with
  | none => (CancelResponse.badRequest, db)
  | some s =>
    match pyInt s with
    | none => (CancelResponse.badRequest, db)
    | some rid =>
      if db.cancellations.any (fun c => c.rid == rid) then
        (CancelResponse.successAlready, db)
      else
        (CancelResponse.success,
          { db with cancellations :=
              db.cancellations ++ [⟨rid, "Webfront", now⟩] })

/-- Claim C10: when `rid` parses and no Cancellation row with that rid
exists, `cancel_merge` inserts `Cancellation(rid, who='Webfront',
when=now)` and reports SUCCESS, leaving `merge_history` untouched and
never inspecting it — with any `merge_history` contents, including none at
all, the response and the inserted row are identical, so cancelling a
nonexistent merge also succeeds and leaves an orphan row. -/
theorem C10_cancel_orphan (now : Nat) (s : List Char) (rid : Int)
    (db : WebDB) (hparse : pyInt s = some rid)
    (habsent : ∀ c ∈ db.cancellations, c.rid ≠ rid) :
    (cancel_merge now (some s) db).1 = CancelResponse.success
    ∧ (cancel_merge now (some s) db).2.cancellations
        = db.cancellations ++ [⟨rid, "Webfront", now⟩]
    ∧ (cancel_merge now (some s) db).2.merge_history = db.merge_history
    ∧ ∀ ms : List MergeStatusRow,
        cancel_merge now (some s) { db with merge_history := ms }
          = ((cancel_merge now (some s) db).1,
             { (cancel_merge now (some s) db).2 with merge_history := ms }) := by
  have hany : ∀ cs : List Cancellation, (∀ c ∈ cs, c.rid ≠ rid) →
      (cs.any fun c => c.rid == rid) = false := by
    intro cs hcs
    rw [Bool.eq_false_iff]
    intro h
    rw [List.any_eq_true] at h
    obtain ⟨c, hcm, hceq⟩ := h
    exact hcs c hcm (by simpa using hceq)
  have h1 := hany db.cancellations habsent
  rw [cancel_merge]
  simp only [hparse, h1]
  refine ⟨rfl, rfl, rfl, fun ms => ?_⟩
  rw [cancel_merge]
  simp only [hparse, h1]
  rfl

/-- Witness for `C10_cancel_orphan` with an empty store: no MergeStatus row
with rid 3 exists, yet the cancellation succeeds and the orphan row is
inserted. -/
theorem C10_witness :
    (cancel_merge 7 (some (("3").data)) ⟨[], []⟩).1 = CancelResponse.success
    ∧ (cancel_merge 7 (some (("3").data)) ⟨[], []⟩).2.cancellations
        = [⟨3, "Webfront", 7⟩] := by
  have h := C10_cancel_orphan 7 (("3").data) 3 ⟨[], []⟩ (by decide)
    (by intro c hc; simp at hc)
  exact ⟨h.1, by rw [h.2.1]; rfl⟩

/-! ### C5: `handle_pid_file` (daemon.py lines 549-581) and the start of
`MergeDaemon.run` (daemon.py lines 824-834)

`handle_pid_file` reads an existing pid file; when it holds a pid that is
not ours and `/proc/<pid>/stat` exists it logs an error and returns `1`
without rewriting the file; otherwise it writes our pid.  `MergeDaemon.run`
calls it as a bare statement, discarding the returned value, and proceeds
unconditionally into `mark_old_changes_as_failed` and the polling loop. -/

/-- Environment of a daemon start: the pid-file contents (if the file
exists), our own pid, and which pids have a live `/proc/<pid>/stat`. -/
structure PidEnv where
  pidfile : Option (List Char)
  our_pid : Int
  proc_alive : Int → Bool

/-- The pid file written for pid `n`: `'{}\n'.format(os.getpid())`. -/
def pidFileContents (n : Int) : List Char :=
  (toString n).data ++ ['\n']

/-- `handle_pid_file`: returns the function result (`some 1` on conflict,
`none` otherwise) together with the resulting pid-file contents. -/
def handle_pid_file (env : PidEnv) : Option Int × Option (List Char) :=
  let other : Option Int :=
    match env.pidfile with
    | none => none
    | some contents => pyInt contents
  match other with
  | some o =>
    if o ≠ env.our_pid then
      if env.proc_alive o then (some 1, env.pidfile)
      else (none, some (pidFileContents env.our_pid))
    else (none, some (pidFileContents env.our_pid))
  | none => (none, some (pidFileContents env.our_pid))

/-- The prologue of `MergeDaemon.run`: the pid-file result is computed and
discarded; the second component records that the polling loop is entered
unconditionally (and `run` later returns 0 on interrupt). -/
def merge_daemon_run_prologue (env : PidEnv) : Option Int × Bool :=
  ((handle_pid_file env).1, true)

/-- Claim C5 (code evaluated at the failing input): with a pid file
containing `1234`, live pid 1234 and our pid 5678, `handle_pid_file`
detects the conflict and returns 1 — but `MergeDaemon.run` discards that
value and still enters the main polling loop, so the daemon does not
refuse to start. -/
theorem C5_pid_conflict_ignored :
    handle_pid_file ⟨some (("1234\n").data), 5678, fun p => p == 1234⟩
        = (some 1, some (("1234\n").data))
    ∧ merge_daemon_run_prologue
        ⟨some (("1234\n").data), 5678, fun p => p == 1234⟩
        = (some 1, true) := by
  refine ⟨by decide, by decide⟩

/-! ### C6: `poll_gerrit` (functions.py lines 54-85)

One poll pass upserts the owner account and inserts a ChangeInfo row (with
the fresh `poll_id` and `priority = message_meta.get('Priority', 100)`) for
each upstream change, commits, then deletes every ChangeInfo row whose
`poll_id` differs from the fresh one. -/

/-- A cached gerrit account (`account_info` table). -/
structure Account where
  rid : Int
  name : String
  email : String
  username : String
deriving DecidableEq

/-- An upstream change as returned by `get_merge_requests`:
`priority` models `message_meta.get('Priority')` and `message_meta` the
serialized metadata blob passed to `json.dumps`. -/
structure UChange where
  project : String
  branch : String
  change_id : String
  subject : String
  current_revision : String
  owner : Account
  queue_time : Nat
  priority : Option Int
  message_meta : String
deriving DecidableEq

/-- One row of the `change_info` table. -/
structure CIRow where
  poll_id : Nat
  queue_time : Nat
  priority : Int
  change_id : String
  project : String
  branch : String
  subject : String
  current_revision : String
  owner_id : Int
  message_meta : String
deriving DecidableEq

/-- The store as seen by the poller. -/
structure Store where
  change_info : List CIRow
  accounts : List Account
deriving DecidableEq

/-- `add_or_update_account_info`: update the row keyed by `account_id`, or
insert it. -/
def upsert_account (accs : List Account) (a : Account) : List Account :=
  if accs.any (fun x => x.rid == a.rid) then
    accs.map (fun x => if x.rid == a.rid then
      { x with name := a.name, email := a.email, username := a.username }
      else x)
  else accs ++ [a]

/-- The ChangeInfo row staged by `poll_gerrit` for one upstream change. -/
def build_change_row (p : Nat) (c : UChange) : CIRow :=
  { poll_id := p, queue_time := c.queue_time,
    priority := c.priority.getD 100, change_id := c.change_id,
    project := c.project, branch := c.branch, subject := c.subject,
    current_revision := c.current_revision, owner_id := c.owner.rid,
    message_meta := c.message_meta }

/-- `poll_gerrit(gerrit, sql, poll_id)` with `S` the list returned by
`gerrit.get_merge_requests()`. -/
def poll_gerrit (p : Nat) (S : List UChange) (db : Store) : Store :=
  let db1 := S.foldl (fun acc c =>
    { acc with accounts := upsert_account acc.accounts c.owner,
               change_info := acc.change_info ++ [build_change_row p c] }) db
  { db1 with change_info := db1.change_info.filter (fun r => r.poll_id == p) }

/-- `get_next_poll_id`: `max(ChangeInfo.poll_id) + 1`, or 1 when the table
is empty. -/
def get_next_poll_id (db : Store) : Nat :=
  (db.change_info.foldl (fun m r => max m r.poll_id) 0) + 1

/-- The insertion loop of `poll_gerrit` appends exactly the built rows. -/
theorem poll_gerrit_foldl_change_info (p : Nat) (S : List UChange) :
    ∀ db : Store,
      (S.foldl (fun acc c =>
        { acc with accounts := upsert_account acc.accounts c.owner,
                   change_info := acc.change_info ++ [build_change_row p c] })
        db).change_info
      = db.change_info ++ S.map (build_change_row p) := by
  induction S with
  | nil => intro db; simp
  | cons c S ih =>
    intro db
    rw [List.foldl_cons, List.map_cons, ih]
    simp

/-- Claim C6: a poll pass with a fresh poll id `p` (no pre-existing row
carries `p`, as guaranteed by `get_next_poll_id`) leaves the change_info
table holding exactly the rows built from the upstream list `S`, every one
of them with `poll_id = p`. -/
theorem C6_poll_freshness (p : Nat) (S : List UChange) (db : Store)
    (hfresh : ∀ r ∈ db.change_info, r.poll_id ≠ p) :
    (poll_gerrit p S db).change_info = S.map (build_change_row p)
    ∧ ∀ r ∈ (poll_gerrit p S db).change_info, r.poll_id = p := by
  have hmain : (poll_gerrit p S db).change_info = S.map (build_change_row p) := by
    rw [poll_gerrit]
    simp only [poll_gerrit_foldl_change_info p S db]
    rw [List.filter_append]
    have hold : db.change_info.filter (fun r => r.poll_id == p) = [] := by
      rw [List.filter_eq_nil_iff]
      intro r hr
      simpa using hfresh r hr
    have hnew : (S.map (build_change_row p)).filter (fun r => r.poll_id == p)
        = S.map (build_change_row p) := by
      rw [List.filter_eq_self]
      intro r hr
      rw [List.mem_map] at hr
      obtain ⟨c, -, rfl⟩ := hr
      simp [build_change_row]
    rw [hold, hnew, List.nil_append]
  refine ⟨hmain, fun r hr => ?_⟩
  rw [hmain, List.mem_map] at hr
  obtain ⟨c, -, rfl⟩ := hr
  rfl

/-- Witness for `C6_poll_freshness`: a store holding one stale row from
poll 1 is polled with id 2 and one upstream change; afterwards the table
holds exactly the one freshly built row. -/
theorem C6_witness :
    (poll_gerrit 2
      [⟨"prj", "master", "I1", "s", "r1", ⟨9, "n", "e", "u"⟩, 5, none, "m"⟩]
      ⟨[⟨1, 4, 100, "I0", "prj", "master", "t", "r0", 9, "m"⟩], []⟩).change_info
      = [⟨2, 5, 100, "I1", "prj", "master", "s", "r1", 9, "m"⟩]
    ∧ ∀ r ∈ (poll_gerrit 2
      [⟨"prj", "master", "I1", "s", "r1", ⟨9, "n", "e", "u"⟩, 5, none, "m"⟩]
      ⟨[⟨1, 4, 100, "I0", "prj", "master", "t", "r0", 9, "m"⟩], []⟩).change_info,
        r.poll_id = 2 := by
  have h := C6_poll_freshness 2
    [⟨"prj", "master", "I1", "s", "r1", ⟨9, "n", "e", "u"⟩, 5, none, "m"⟩]
    ⟨[⟨1, 4, 100, "I0", "prj", "master", "t", "r0", 9, "m"⟩], []⟩
    (by intro r hr; simp at hr; rw [hr]; decide)
  exact ⟨by rw [h.1]; rfl, h.2⟩

/-! ### C7: `kill_step` (daemon.py lines 272-294)

`kill_step` records `start_time`, then loops sending SIGTERM and sleeping
2 s while the child's `poll()` is `None`, breaking when
`time.time() - start_time > 10`; a second identical loop sends SIGKILL —
but it compares against the *same* `start_time`, so both loops share one
10-second deadline.  Time is modelled in whole seconds; the child is
modelled by optional delays from the first SIGTERM / first SIGKILL to its
death. -/

/-- A child process: `termDelay = some d` means it dies `d` seconds after
the first SIGTERM (`none`: it ignores SIGTERM); `killDelay` likewise for
SIGKILL. -/
structure Child where
  termDelay : Option Nat
  killDelay : Option Nat
deriving DecidableEq

/-- Whether a signal first delivered at `first` with reaction delay
`delay` has killed the child by time `t`. -/
def deadBy (first : Option Nat) (delay : Option Nat) (t : Nat) : Bool :=
  match first with
  | none => false
  | some f =>
    match delay with
    | none => false
    | some d => decide (f + d ≤ t)

/-- The state threaded through `kill_step`: current time, times of the
first SIGTERM and first SIGKILL, and the log of signals sent
(`(time, isKill)`). -/
structure KillState where
  t : Nat
  firstTerm : Option Nat
  firstKill : Option Nat
  events : List (Nat × Bool)
deriving DecidableEq

/-- `step_proc.poll() is None` at the current time. -/
def childAlive (c : Child) (st : KillState) : Bool :=
  !(deadBy st.firstTerm c.termDelay st.t || deadBy st.firstKill c.killDelay st.t)

/-- One of the two signalling loops of `kill_step`: while the child is
alive, send the signal, sleep 2 s, and break once more than 10 s have
passed since `kill_step` began.  `fuel` only bounds the recursion; the
deadline breaks the loop long before fuel 8 is exhausted. -/
def killPhase (c : Child) (isKill : Bool) : Nat → KillState → KillState
  | 0, st => st
  | fuel + 1, st =>
    if childAlive c st then
      let st1 : KillState :=
        { t := st.t + 2,
          firstTerm := if isKill then st.firstTerm
            else some (st.firstTerm.getD st.t),
          firstKill := if isKill then some (st.firstKill.getD st.t)
            else st.firstKill,
          events := st.events ++ [(st.t, isKill)] }
      if st1.t > 10 then st1 else killPhase c isKill fuel st1
    else st

/-- `kill_step`: the SIGTERM loop followed by the SIGKILL loop, both
measured against the single `start_time` taken on entry. -/
def kill_step (c : Child) : KillState :=
  killPhase c true 8 (killPhase c false 8 ⟨0, none, none, []⟩)

/-- Claim C7 (counterexample): a child that ignores SIGTERM and dies 4
seconds after its first SIGKILL would be reaped inside the further
10-second SIGKILL window the claim describes; in the code both loops share
the 10-second deadline from the start of `kill_step`, so the SIGKILL loop
exits at t = 14 (one SIGKILL at t = 12 plus one 2-second sleep) while the
child is still alive, and it is logged as zombified. -/
theorem C7_counterexample :
    (kill_step ⟨none, some 4⟩).t = 14
    ∧ childAlive ⟨none, some 4⟩ (kill_step ⟨none, some 4⟩) = true
    ∧ (kill_step ⟨none, some 4⟩).events
        = [(0, false), (2, false), (4, false), (6, false), (8, false),
           (10, false), (12, true)] := by
  refine ⟨by decide, by decide, by decide⟩

/-- Claim C7 (amended): SIGTERM is sent and the child polled every 2
seconds; the SIGKILL loop runs against the same 10-second deadline counted
from the start of `kill_step`, so a child that ignores SIGTERM — whatever
its SIGKILL reaction delay — receives SIGTERM at seconds 0 through 10,
exactly one SIGKILL at second 12, and the runner proceeds at second 14
rather than granting a further 10-second SIGKILL window. -/
theorem C7_amended (k : Option Nat) :
    kill_step ⟨none, k⟩ =
      ⟨14, some 0, some 12,
        [(0, false), (2, false), (4, false), (6, false), (8, false),
         (10, false), (12, true)]⟩ := rfl

/-! ### C2, C3, C4: `MergeDaemon.coalesce_merge` (daemon.py lines 690-822)
and one iteration of `MergeDaemon.run` (daemon.py lines 868-904)

`coalesce_merge` is modelled by its observable effects: the verification
status (the outcome of `run_steps` and of the surrounding exception
handler, supplied as an oracle `verify` over the list of change ids), the
reviews posted to gerrit, the `dirty_changes` update, and the return value
(0 on success, -1 otherwise).  One scheduling call is the body of the `while` loop in `run` after
the poll: build the coalesce queue, possibly run a coalesced verification,
fall through to the serial verification of `request_queue[0]`, and discard
its id from `dirty_changes`. -/

/-- A queued change as the scheduler sees it. -/
structure SchedChange where
  change_id : String
deriving DecidableEq

/-- A review posted through `gerrit.set_review`: the Merge-Queue label
value and whether `notify` was set to `NONE`. -/
structure Review where
  change_id : String
  label : Int
  notify_none : Bool
deriving DecidableEq

/-- Python `set.add` on a list-modelled set. -/
def setAdd (s : List String) (x : String) : List String :=
  if x ∈ s then s else s ++ [x]

/-- Python `set.discard` on a list-modelled set. -/
def setDiscard (s : List String) (x : String) : List String :=
  s.filter (fun y => decide (y ≠ x))

/-- The observable outcome of one `coalesce_merge` call. -/
structure MergeOutcome where
  status : Int
  result : Int
  pre_reviews : List Review
  result_reviews : List Review
  dirty : List String
deriving DecidableEq

/-- `MergeDaemon.coalesce_merge(queue_spec, change_queue)`: `verify` maps
the change ids to the final `merge.status` (`run_steps` result or
STEP_FAILED from the exception handler); `dirty` is
`queue_spec.dirty_changes` on entry. -/
def coalesce_merge (verify : List String → Int) (silent : Bool)
    (dirty : List String) (queue : List SchedChange) : MergeOutcome :=
  let ids := queue.map (fun c => c.change_id)
  let status := verify ids
  let score : Int := if queue.length = 1 ∧ status ≠ 0 then -1 else 0
  { status := status,
    result := if status = 0 then 0 else -1,
    pre_reviews := if silent then [] else
      queue.map (fun c => ⟨c.change_id, 0, true⟩),
    result_reviews := if silent then [] else
      queue.map (fun c => ⟨c.change_id, score, decide (status = 0)⟩),
    dirty := if status = 0 then
        queue.foldl (fun d c => setDiscard d c.change_id) dirty
      else queue.foldl (fun d c => setAdd d c.change_id) dirty }

/-- The coalesce-queue construction in `run`: walk `request_queue`,
stopping before the first dirty change and after `coalesce_count` items. -/
def buildCoalesce (dirty : List String) :
    Nat → List SchedChange → List SchedChange
  | _, [] => []
  | count, c :: rest =>
    if c.change_id ∈ dirty then []
    else if count ≤ 1 then [c]
    else c :: buildCoalesce dirty (count - 1) rest

/-- The outcome of one scheduling call: the final `dirty_changes`, the
verifications performed in order (ids and status), and the reviews posted. -/
structure SchedResult where
  dirty : List String
  verifs : List (List String × Int)
  reviews : List Review
deriving DecidableEq

/-- The tail of every scheduling call: the serial verification of
`request_queue[:1]` followed by the unconditional
`dirty_changes.discard(request_queue[0].change_id)`. -/
def serial_step (verify : List String → Int) (silent : Bool)
    (dirty : List String) (head : SchedChange) : SchedResult :=
  let o := coalesce_merge verify silent dirty [head]
  { dirty := setDiscard o.dirty head.change_id,
    verifs := [([head.change_id], o.status)],
    reviews := o.pre_reviews ++ o.result_reviews }

/-- One scheduling call of `MergeDaemon.run` over the nonempty
`request_queue = head :: rest`. -/
def scheduling_step (verify : List String → Int) (silent : Bool)
    (coalesce_count : Nat) (dirty0 : List String)
    (head : SchedChange) (rest : List SchedChange) : SchedResult :=
  if coalesce_count > 0 ∧ (head :: rest).length > 1 then
    let cq := buildCoalesce dirty0 coalesce_count (head :: rest)
    if cq.length > 1 then
      let o := coalesce_merge verify silent dirty0 cq
      if o.result = 0 then
        { dirty := o.dirty,
          verifs := [(cq.map (fun c => c.change_id), o.status)],
          reviews := o.pre_reviews ++ o.result_reviews }
      else
        let dirty1 := cq.foldl (fun d c => setAdd d c.change_id) o.dirty
        let s := serial_step verify silent dirty1 head
        { dirty := s.dirty,
          verifs := (cq.map (fun c => c.change_id), o.status) :: s.verifs,
          reviews := (o.pre_reviews ++ o.result_reviews) ++ s.reviews }
    else serial_step verify silent dirty0 head
  else serial_step verify silent dirty0 head

theorem mem_setAdd_of_mem {s : List String} {x : String} (y : String)
    (h : x ∈ s) : x ∈ setAdd s y := by
  rw [setAdd]
  split
  · exact h
  · exact List.mem_append_left _ h

theorem mem_setAdd_self (s : List String) (x : String) : x ∈ setAdd s x := by
  rw [setAdd]
  split
  · assumption
  · exact List.mem_append_right _ (List.mem_singleton.mpr rfl)

theorem not_mem_setDiscard_self (s : List String) (x : String) :
    x ∉ setDiscard s x := by
  intro h
  rw [setDiscard, List.mem_filter] at h
  simpa using h.2

theorem not_mem_setDiscard_of_not_mem {s : List String} {x : String}
    (y : String) (h : x ∉ s) : x ∉ setDiscard s y := by
  intro hmem
  exact h (List.mem_of_mem_filter hmem)

theorem mem_setDiscard_of_ne {s : List String} {x : String} (y : String)
    (h : x ∈ s) (hne : x ≠ y) : x ∈ setDiscard s y := by
  rw [setDiscard, List.mem_filter]
  exact ⟨h, by simpa using hne⟩

theorem mem_foldl_setAdd_of_mem (l : List SchedChange) :
    ∀ (s : List String) (x : String), x ∈ s →
      x ∈ l.foldl (fun d c => setAdd d c.change_id) s := by
  induction l with
  | nil => intro s x h; exact h
  | cons c l ih => intro s x h; exact ih _ x (mem_setAdd_of_mem _ h)

theorem mem_foldl_setAdd_self (l : List SchedChange) :
    ∀ (s : List String) (c : SchedChange), c ∈ l →
      c.change_id ∈ l.foldl (fun d c => setAdd d c.change_id) s := by
  induction l with
  | nil => intro s c h; exact absurd h (List.not_mem_nil c)
  | cons c0 l ih =>
    intro s c h
    rcases List.mem_cons.mp h with h | h
    · subst h
      exact mem_foldl_setAdd_of_mem l _ _ (mem_setAdd_self s c.change_id)
    · exact ih _ c h

theorem not_mem_foldl_setDiscard_of_not_mem (l : List SchedChange) :
    ∀ (s : List String) (x : String), x ∉ s →
      x ∉ l.foldl (fun d c => setDiscard d c.change_id) s := by
  induction l with
  | nil => intro s x h; exact h
  | cons c l ih =>
    intro s x h
    exact ih _ x (not_mem_setDiscard_of_not_mem _ h)

theorem not_mem_foldl_setDiscard_self (l : List SchedChange) :
    ∀ (s : List String) (c : SchedChange), c ∈ l →
      c.change_id ∉ l.foldl (fun d c => setDiscard d c.change_id) s := by
  induction l with
  | nil => intro s c h; exact absurd h (List.not_mem_nil c)
  | cons c0 l ih =>
    intro s c h
    rcases List.mem_cons.mp h with h | h
    · subst h
      exact not_mem_foldl_setDiscard_of_not_mem l _ _
        (not_mem_setDiscard_self s c.change_id)
    · exact ih _ c h

/-- A nonempty coalesce queue starts with the head of the request queue. -/
theorem buildCoalesce_shape (dirty : List String) (count : Nat)
    (head : SchedChange) (rest : List SchedChange) :
    buildCoalesce dirty count (head :: rest) = []
    ∨ ∃ tl, buildCoalesce dirty count (head :: rest) = head :: tl := by
  rw [buildCoalesce]
  split
  · exact Or.inl rfl
  · split
    · exact Or.inr ⟨[], rfl⟩
    · exact Or.inr ⟨_, rfl⟩

/-- The dirty set after `serial_step` never contains the head's id. -/
theorem serial_step_head_not_dirty (verify : List String → Int)
    (silent : Bool) (dirty : List String) (head : SchedChange) :
    head.change_id ∉ (serial_step verify silent dirty head).dirty :=
  not_mem_setDiscard_self _ _

/-- Claim C2 (counterexample): with `coalesce_count = 2`, queue
`[c1, c2]`, empty dirty set and every verification failing, a single
scheduling call performs two verifications — the failed coalesced one over
`[c1, c2]` and, in the same call, the serial one over `[c1]` — and returns
with `c1` absent from `dirty_changes` (only `c2` remains). -/
theorem C2_counterexample :
    (scheduling_step (fun _ => -1) true 2 [] ⟨"c1"⟩ [⟨"c2"⟩]).verifs
        = [(["c1", "c2"], -1), (["c1"], -1)]
    ∧ ¬ (scheduling_step (fun _ => -1) true 2 [] ⟨"c1"⟩ [⟨"c2"⟩]).verifs.length ≤ 1
    ∧ "c1" ∉ (scheduling_step (fun _ => -1) true 2 [] ⟨"c1"⟩ [⟨"c2"⟩]).dirty
    ∧ "c2" ∈ (scheduling_step (fun _ => -1) true 2 [] ⟨"c1"⟩ [⟨"c2"⟩]).dirty := by
  refine ⟨by decide, by decide, by decide, by decide⟩

/-- Claim C2 (amended): a scheduling call performs at most two
verifications; when the coalesced verification over `[c1 … ck]` fails, the
serial verification of `c1` runs in the *same* scheduling call, and at its
return every `ci` other than `c1` is in `dirty_changes` while `c1` itself
has been discarded from it. -/
theorem C2_amended (verify : List String → Int) (silent : Bool)
    (count : Nat) (dirty0 : List String) (head : SchedChange)
    (rest : List SchedChange)
    (hcount : 0 < count) (hrest : rest ≠ [])
    (hbig : 1 < (buildCoalesce dirty0 count (head :: rest)).length)
    (hfail : verify ((buildCoalesce dirty0 count (head :: rest)).map
        (fun c => c.change_id)) ≠ 0) :
    (∀ (v : List String → Int) (sil : Bool) (cc : Nat) (d : List String)
        (h : SchedChange) (t : List SchedChange),
        (scheduling_step v sil cc d h t).verifs.length ≤ 2)
    ∧ (scheduling_step verify silent count dirty0 head rest).verifs
        = [((buildCoalesce dirty0 count (head :: rest)).map
              (fun c => c.change_id),
            verify ((buildCoalesce dirty0 count (head :: rest)).map
              (fun c => c.change_id))),
           ([head.change_id], verify [head.change_id])]
    ∧ (∀ i ∈ (buildCoalesce dirty0 count (head :: rest)).map
          (fun c => c.change_id),
        i ≠ head.change_id →
          i ∈ (scheduling_step verify silent count dirty0 head rest).dirty)
    ∧ head.change_id ∉
        (scheduling_step verify silent count dirty0 head rest).dirty := by
  have houter : count > 0 ∧ (head :: rest).length > 1 := by
    refine ⟨hcount, ?_⟩
    have := List.length_pos.mpr hrest
    simp only [List.length_cons]
    omega
  have hresfail : ¬ (coalesce_merge verify silent dirty0
      (buildCoalesce dirty0 count (head :: rest))).result = 0 := by
    have : (coalesce_merge verify silent dirty0
        (buildCoalesce dirty0 count (head :: rest))).result = -1 := by
      simp [coalesce_merge, hfail]
    rw [this]
    decide
  have hglobal : ∀ (v : List String → Int) (sil : Bool) (cc : Nat)
      (d : List String) (h : SchedChange) (t : List SchedChange),
      (scheduling_step v sil cc d h t).verifs.length ≤ 2 := by
    intro v sil cc d h t
    simp only [scheduling_step]
    split
    · split
      · split
        · simp
        · simp [serial_step]
      · simp [serial_step]
    · simp [serial_step]
  have hsched : scheduling_step verify silent count dirty0 head rest
      = { dirty := (serial_step verify silent
            ((buildCoalesce dirty0 count (head :: rest)).foldl
              (fun d c => setAdd d c.change_id)
              (coalesce_merge verify silent dirty0
                (buildCoalesce dirty0 count (head :: rest))).dirty) head).dirty,
          verifs := ((buildCoalesce dirty0 count (head :: rest)).map
              (fun c => c.change_id),
            (coalesce_merge verify silent dirty0
              (buildCoalesce dirty0 count (head :: rest))).status)
            :: (serial_step verify silent
              ((buildCoalesce dirty0 count (head :: rest)).foldl
                (fun d c => setAdd d c.change_id)
                (coalesce_merge verify silent dirty0
                  (buildCoalesce dirty0 count (head :: rest))).dirty) head).verifs,
          reviews := ((coalesce_merge verify silent dirty0
              (buildCoalesce dirty0 count (head :: rest))).pre_reviews
            ++ (coalesce_merge verify silent dirty0
              (buildCoalesce dirty0 count (head :: rest))).result_reviews)
            ++ (serial_step verify silent
              ((buildCoalesce dirty0 count (head :: rest)).foldl
                (fun d c => setAdd d c.change_id)
                (coalesce_merge verify silent dirty0
                  (buildCoalesce dirty0 count (head :: rest))).dirty) head).reviews } := by
    simp only [scheduling_step]
    rw [if_pos houter, if_pos hbig, if_neg hresfail]
  refine ⟨hglobal, ?_, ?_, ?_⟩
  · rw [hsched]
    simp [serial_step, coalesce_merge]
  · intro i hi hne
    rw [hsched]
    rw [List.mem_map] at hi
    obtain ⟨c, hc, rfl⟩ := hi
    have ho1 : (coalesce_merge verify silent dirty0
        (buildCoalesce dirty0 count (head :: rest))).dirty
        = (buildCoalesce dirty0 count (head :: rest)).foldl
            (fun d c => setAdd d c.change_id) dirty0 := by
      simp [coalesce_merge, hfail]
    have h1 : c.change_id ∈ (coalesce_merge verify silent dirty0
        (buildCoalesce dirty0 count (head :: rest))).dirty := by
      rw [ho1]
      exact mem_foldl_setAdd_self _ _ c hc
    have h2 : c.change_id ∈ (buildCoalesce dirty0 count (head :: rest)).foldl
        (fun d c => setAdd d c.change_id)
        (coalesce_merge verify silent dirty0
          (buildCoalesce dirty0 count (head :: rest))).dirty :=
      mem_foldl_setAdd_of_mem _ _ _ h1
    set dirty1 : List String := (buildCoalesce dirty0 count (head :: rest)).foldl
        (fun d c => setAdd d c.change_id)
        (coalesce_merge verify silent dirty0
          (buildCoalesce dirty0 count (head :: rest))).dirty with hdirty1
    show c.change_id ∈ setDiscard
      (coalesce_merge verify silent dirty1 [head]).dirty head.change_id
    refine mem_setDiscard_of_ne _ ?_ hne
    by_cases hst2 : verify [head.change_id] = 0
    · have hd2 : (coalesce_merge verify silent dirty1 [head]).dirty
          = setDiscard dirty1 head.change_id := by
        simp [coalesce_merge, hst2]
      rw [hd2]
      exact mem_setDiscard_of_ne _ h2 hne
    · have hd2 : (coalesce_merge verify silent dirty1 [head]).dirty
          = setAdd dirty1 head.change_id := by
        simp [coalesce_merge, hst2]
      rw [hd2]
      exact mem_setAdd_of_mem _ h2
  · rw [hsched]
    exact serial_step_head_not_dirty _ _ _ _

/-- Witness for `C2_amended`: the concrete two-change failing scenario,
with the conclusions evaluated. -/
theorem C2_witness :
    (scheduling_step (fun _ => -1) false 2 [] ⟨"c1"⟩ [⟨"c2"⟩]).verifs
        = [(["c1", "c2"], -1), (["c1"], -1)]
    ∧ "c1" ∉ (scheduling_step (fun _ => -1) false 2 [] ⟨"c1"⟩ [⟨"c2"⟩]).dirty := by
  have h := C2_amended (fun _ => -1) false 2 [] ⟨"c1"⟩ [⟨"c2"⟩]
    (by decide) (by decide) (by decide) (by decide)
  refine ⟨?_, h.2.2.2⟩
  rw [h.2.1]
  rfl

/-- Claim C3 (counterexample): a successful non-silent serial verification
posts a result review whose Merge-Queue label is 0 (with notify NONE), not
the +1 the claim states. -/
theorem C3_counterexample :
    (coalesce_merge (fun _ => 0) false [] [⟨"c1"⟩]).status = 0
    ∧ (coalesce_merge (fun _ => 0) false [] [⟨"c1"⟩]).result_reviews
        = [⟨"c1", 0, true⟩]
    ∧ ¬ ∀ r ∈ (coalesce_merge (fun _ => 0) false [] [⟨"c1"⟩]).result_reviews,
        r.label = 1 := by
  refine ⟨by decide, by decide, by decide⟩

/-- Claim C3 (amended): the non-silent result review posted to each change
carries Merge-Queue label -1 when the verification was serial
(`|change_queue| = 1`) and its status is not SUCCESS, and label 0 in every
other case — including success, where the label is 0 (not +1) and `notify`
is NONE; on a non-success completion `notify` is not suppressed. -/
theorem C3_amended (verify : List String → Int) (dirty : List String)
    (queue : List SchedChange) (o : MergeOutcome)
    (ho : o = coalesce_merge verify false dirty queue) :
    o.result_reviews.map (fun r => r.change_id)
        = queue.map (fun c => c.change_id)
    ∧ (queue.length = 1 → o.status ≠ 0 →
        ∀ r ∈ o.result_reviews, r.label = -1)
    ∧ (o.status = 0 →
        (∀ r ∈ o.result_reviews, r.label = 0)
        ∧ ∀ r ∈ o.result_reviews, r.notify_none = true)
    ∧ (queue.length ≠ 1 → o.status ≠ 0 →
        (∀ r ∈ o.result_reviews, r.label = 0)
        ∧ ∀ r ∈ o.result_reviews, r.notify_none = false) := by
  subst ho
  have hstat : (coalesce_merge verify false dirty queue).status
      = verify (queue.map fun c => c.change_id) := rfl
  have hrr : (coalesce_merge verify false dirty queue).result_reviews
      = queue.map (fun c =>
          ⟨c.change_id,
           if queue.length = 1 ∧ verify (queue.map fun c => c.change_id) ≠ 0
             then -1 else 0,
           decide (verify (queue.map fun c => c.change_id) = 0)⟩) := by
    simp [coalesce_merge]
  refine ⟨?_, ?_, ?_, ?_⟩
  · rw [hrr, List.map_map]
    rfl
  · intro hlen hne r hr
    rw [hstat] at hne
    rw [hrr, List.mem_map] at hr
    obtain ⟨c, -, rfl⟩ := hr
    simp [hlen, hne]
  · intro hz
    rw [hstat] at hz
    refine ⟨fun r hr => ?_, fun r hr => ?_⟩ <;>
    · rw [hrr, List.mem_map] at hr
      obtain ⟨c, -, rfl⟩ := hr
      simp [hz]
  · intro hlen hne
    rw [hstat] at hne
    refine ⟨fun r hr => ?_, fun r hr => ?_⟩ <;>
    · rw [hrr, List.mem_map] at hr
      obtain ⟨c, -, rfl⟩ := hr
      simp [hlen, hne]

/-- Witness for `C3_amended`: a failed serial verification posts label -1;
a successful one posts label 0 with notify NONE. -/
theorem C3_witness :
    (∀ r ∈ (coalesce_merge (fun _ => -1) false [] [⟨"c1"⟩]).result_reviews,
        r.label = -1)
    ∧ (∀ r ∈ (coalesce_merge (fun _ => 0) false [] [⟨"c1"⟩]).result_reviews,
        r.label = 0)
    ∧ (∀ r ∈ (coalesce_merge (fun _ => 0) false [] [⟨"c1"⟩]).result_reviews,
        r.notify_none = true) := by
  have h1 := C3_amended (fun _ => -1) [] [⟨"c1"⟩] _ rfl
  have h2 := C3_amended (fun _ => 0) [] [⟨"c1"⟩] _ rfl
  exact ⟨h1.2.1 (by decide) (by decide), (h2.2.2.1 (by decide)).1,
    (h2.2.2.1 (by decide)).2⟩

/-- Claim C4 (counterexample): a failed serial verification of the lone
dirty change `c1` still removes `"c1"` from `dirty_changes` — the
scheduling call's unconditional discard overrides the failure —
contradicting "removes if and only if SUCCESS". -/
theorem C4_counterexample :
    (scheduling_step (fun _ => -1) true 0 ["c1"] ⟨"c1"⟩ []).verifs
        = [(["c1"], -1)]
    ∧ (scheduling_step (fun _ => -1) true 0 ["c1"] ⟨"c1"⟩ []).dirty = []
    ∧ "c1" ∉ (scheduling_step (fun _ => -1) true 0 ["c1"] ⟨"c1"⟩ []).dirty := by
  refine ⟨by decide, by decide, by decide⟩

/-- Claim C4 (amended): after every scheduling call, the head change's id
is absent from `dirty_changes` regardless of the verification's status:
the serial path ends with an unconditional discard of
`request_queue[0].change_id`, and a successful coalesced verification also
discards all of its members (the head among them). -/
theorem C4_amended (verify : List String → Int) (silent : Bool)
    (count : Nat) (dirty0 : List String) (head : SchedChange)
    (rest : List SchedChange) :
    head.change_id ∉
      (scheduling_step verify silent count dirty0 head rest).dirty := by
  simp only [scheduling_step]
  split
  · split
    · split
      case isTrue houter hlen hres =>
        by_cases hst : verify ((buildCoalesce dirty0 count (head :: rest)).map
            (fun c => c.change_id)) = 0
        · have hd : (coalesce_merge verify silent dirty0
              (buildCoalesce dirty0 count (head :: rest))).dirty
              = (buildCoalesce dirty0 count (head :: rest)).foldl
                  (fun d c => setDiscard d c.change_id) dirty0 := by
            simp [coalesce_merge, hst]
          show head.change_id ∉ (coalesce_merge verify silent dirty0
            (buildCoalesce dirty0 count (head :: rest))).dirty
          rw [hd]
          rcases buildCoalesce_shape dirty0 count head rest with hnil | ⟨tl, htl⟩
          · rw [hnil] at hlen
            simp at hlen
          · refine not_mem_foldl_setDiscard_self _ _ head ?_
            rw [htl]
            exact List.mem_cons_self head tl
        · have : (coalesce_merge verify silent dirty0
              (buildCoalesce dirty0 count (head :: rest))).result = -1 := by
            simp [coalesce_merge, hst]
          rw [this] at hres
          exact absurd hres (by decide)
      case isFalse =>
        exact serial_step_head_not_dirty _ _ _ _
    · exact serial_step_head_not_dirty _ _ _ _
  · exact serial_step_head_not_dirty _ _ _ _

/-- Witness for `C4_amended`: a failed serial verification over a queue
whose head starts dirty still ends with the head's id discarded. -/
theorem C4_witness :
    "a" ∉ (scheduling_step (fun _ => -2) false 3 ["a", "b"] ⟨"a"⟩
      [⟨"b"⟩, ⟨"c"⟩]).dirty :=
  C4_amended (fun _ => -2) false 3 ["a", "b"] ⟨"a"⟩ [⟨"b"⟩, ⟨"c"⟩]

end GerritMQ
